import Mathlib

/-!
Verification of the schema-inference engine of `generate_der.js`
(sql-create-extractor). Strings are modelled as `List Char`; each
definition mirrors one function or code block of the source file.
JavaScript regular expressions used by the source are deterministic on
their inputs (no ambiguous backtracking), so they are embedded as the
equivalent explicit scanning functions, documented at each definition.
-/

namespace Der

set_option maxRecDepth 100000

abbrev Str := List Char

/-- JavaScript whitespace (`\s`), restricted to its ASCII members, which are
the only ones relevant to the SQL inputs handled here. -/
def isWS (c : Char) : Bool :=
  c = ' ' || c = '\t' || c = '\n' || c = '\r' || c = '\x0b' || c = '\x0c'

/-- JS `String.prototype.trim()`: drop leading and trailing whitespace. -/
def trimChars (l : Str) : Str :=
  ((l.dropWhile isWS).reverse.dropWhile isWS).reverse

/-- JS `String.prototype.toUpperCase()` on ASCII text. -/
def upperStr (l : Str) : Str := l.map Char.toUpper

/-- The characters deleted by `cleanName`'s first replace:
double quote, backquote (code 96), and square brackets. -/
def isQuoteChar (c : Char) : Bool :=
  c = '"' || c = '\x60' || c = '[' || c = ']'

/-- The character class `[a-zA-Z0-9_]` of `cleanName`'s last replace. -/
def isWordChar (c : Char) : Bool := c.isAlpha || c.isDigit || c = '_'

/-- The four global replacements of `cleanName`, in source order:
strip quoting characters, dot to underscore, `#` to `_NUM`, any other
character outside `[a-zA-Z0-9_]` to underscore. -/
def cleanNameStages (l : Str) : Str :=
  (((l.filter (fun c => !isQuoteChar c)).map
      (fun c => if c = '.' then '_' else c)).flatMap
      (fun c => if c = '#' then "_NUM".toList else [c])).map
    (fun c => if isWordChar c then c else '_')

/-- Function `cleanName` from `generate_der.js`: the replacement chain followed by
`trim()`. -/
def cleanName (l : Str) : Str := trimChars (cleanNameStages l)

/-! Basic lemmas about the normalizer. -/

theorem dropWhile_eq_self_of_all {p : Char → Bool} {l : Str}
    (h : ∀ c ∈ l, p c = false) : l.dropWhile p = l := by
  cases l with
  | nil => rfl
  | cons a t => simp [List.dropWhile, h a (List.mem_cons_self a t)]

theorem trim_eq_self_of_no_ws {l : Str}
    (h : ∀ c ∈ l, isWS c = false) : trimChars l = l := by
  unfold trimChars
  rw [dropWhile_eq_self_of_all h, dropWhile_eq_self_of_all, List.reverse_reverse]
  intro c hc
  exact h c (List.mem_reverse.mp hc)

theorem mem_trim {l : Str} {c : Char} (h : c ∈ trimChars l) : c ∈ l := by
  unfold trimChars at h
  have h1 := List.mem_reverse.mp h
  have h2 := (List.dropWhile_sublist (l := (l.dropWhile isWS).reverse) isWS).mem h1
  exact (List.dropWhile_sublist isWS).mem (List.mem_reverse.mp h2)

theorem wordChar_not_ws {c : Char} (h : isWordChar c = true) : isWS c = false := by
  by_contra hws
  have hws' : isWS c = true := by
    cases hw : isWS c
    · exact absurd hw hws
    · rfl
  unfold isWS at hws'
  have : c = ' ' ∨ c = '\t' ∨ c = '\n' ∨ c = '\r' ∨ c = '\x0b' ∨ c = '\x0c' := by
    simpa [Bool.or_eq_true_iff, or_assoc] using hws'
  rcases this with hc | hc | hc | hc | hc | hc <;> (subst hc; exact absurd h (by decide))

theorem all_wordChar_stages (l : Str) :
    ∀ c ∈ cleanNameStages l, isWordChar c = true := by
  intro c hc
  unfold cleanNameStages at hc
  obtain ⟨a, _, ha⟩ := List.mem_map.mp hc
  by_cases h : isWordChar a = true
  · rw [if_pos h] at ha; subst ha; exact h
  · rw [if_neg h] at ha; subst ha; decide

theorem map_id_of_mem {α : Type} {f : α → α} {l : List α}
    (h : ∀ a ∈ l, f a = a) : l.map f = l := by
  induction l with
  | nil => rfl
  | cons a t ih =>
    simp only [List.map_cons, h a (List.mem_cons_self a t),
      ih (fun x hx => h x (List.mem_cons_of_mem a hx))]

theorem flatMap_id_of_mem {α : Type} {f : α → List α} {l : List α}
    (h : ∀ a ∈ l, f a = [a]) : l.flatMap f = l := by
  induction l with
  | nil => rfl
  | cons a t ih =>
    simp only [List.flatMap_cons, h a (List.mem_cons_self a t),
      ih (fun x hx => h x (List.mem_cons_of_mem a hx))]
    rfl

theorem stages_fix {l : Str} (h : ∀ c ∈ l, isWordChar c = true) :
    cleanNameStages l = l := by
  unfold cleanNameStages
  have hfil : l.filter (fun c => !isQuoteChar c) = l := by
    rw [List.filter_eq_self]
    intro c hc
    have hw := h c hc
    simp only [Bool.not_eq_true']
    unfold isQuoteChar
    simp only [Bool.or_eq_false_iff, decide_eq_false_iff_not]
    refine ⟨⟨⟨?_, ?_⟩, ?_⟩, ?_⟩ <;> (intro he; subst he; exact absurd hw (by decide))
  rw [hfil]
  have hdot : l.map (fun c => if c = '.' then '_' else c) = l := by
    apply map_id_of_mem
    intro a ha
    have hw := h a ha
    have : a ≠ '.' := by intro he; subst he; exact absurd hw (by decide)
    simp [this]
  rw [hdot]
  have hhash : l.flatMap (fun c => if c = '#' then "_NUM".toList else [c]) = l := by
    apply flatMap_id_of_mem
    intro a ha
    have hw := h a ha
    have : a ≠ '#' := by intro he; subst he; exact absurd hw (by decide)
    simp [this]
  rw [hhash]
  apply map_id_of_mem
  intro a ha
  simp [h a ha]

theorem cleanName_all_wordChar (l : Str) :
    ∀ c ∈ cleanName l, isWordChar c = true := by
  intro c hc
  exact all_wordChar_stages l c (mem_trim hc)

theorem cleanName_eq_stages (l : Str) : cleanName l = cleanNameStages l := by
  unfold cleanName
  exact trim_eq_self_of_no_ws
    (fun c hc => wordChar_not_ws (all_wordChar_stages l c hc))

/-! The column/constraint splitter: the `for` loop of `generate_der.js`
lines 72-92 that divides a table body on commas while respecting
parentheses, modelled as a left fold over the characters. -/

/-- One iteration of the splitting loop: append the character to
`currentLine`, update `parenthesesCount` for `(` and `)`, and on a comma
at count zero push the accumulated member (comma removed, trimmed). -/
def splitStep (st : List Str × Str × Int) (c : Char) : List Str × Str × Int :=
  let lines := st.1
  let currentLine := st.2.1 ++ [c]
  let p1 : Int := if c = '(' then st.2.2 + 1 else st.2.2
  let parenthesesCount : Int := if c = ')' then p1 - 1 else p1
  if c = ',' ∧ parenthesesCount = 0 then
    (lines ++ [trimChars currentLine.dropLast], [], parenthesesCount)
  else
    (lines, currentLine, parenthesesCount)

/-- The splitter: fold `splitStep` over the body, then push the remaining
`currentLine` if it trims to something non-empty (source lines 90-92). -/
def splitLines (body : Str) : List Str :=
  let st := body.foldl splitStep ([], [], 0)
  if trimChars st.2.1 ≠ [] then st.1 ++ [trimChars st.2.1] else st.1

/-- Modelled from the spec: the top-level comma-separated members of a
body — a comma is top-level when the running count of open minus close
parentheses, scanned left to right from body start, is exactly zero at
that comma. Kept raw (untrimmed, no member dropped) for comparison with
the splitter actually implemented by the source. -/
def specSegStep (st : List Str × Str × Int) (c : Char) : List Str × Str × Int :=
  if c = ',' ∧ st.2.2 = 0 then (st.1 ++ [st.2.1], [], st.2.2)
  else
    (st.1, st.2.1 ++ [c],
      if c = '(' then st.2.2 + 1 else if c = ')' then st.2.2 - 1 else st.2.2)

/-- Modelled from the spec: the list of raw top-level members (always
non-empty: the text after the last top-level comma is the final member). -/
def specTopLevelSegments (body : Str) : List Str :=
  let st := body.foldl specSegStep ([], [], 0)
  st.1 ++ [st.2.1]

/-- The two folds walk in lockstep: the implementation's accumulated lines
are the trimmed spec segments, with identical current member and depth. -/
theorem split_seg_rel (cs : Str) :
    ∀ (segs : List Str) (cur : Str) (d : Int),
    cs.foldl splitStep (segs.map trimChars, cur, d) =
      ((cs.foldl specSegStep (segs, cur, d)).1.map trimChars,
       (cs.foldl specSegStep (segs, cur, d)).2.1,
       (cs.foldl specSegStep (segs, cur, d)).2.2) := by
  induction cs with
  | nil => intro segs cur d; rfl
  | cons c t ih =>
    intro segs cur d
    by_cases hc : c = ','
    · subst hc
      by_cases hd : d = 0
      · subst hd
        have hstep : splitStep (segs.map trimChars, cur, 0) ',' =
            ((segs.map trimChars) ++ [trimChars cur], [], 0) := by
          simp [splitStep, List.dropLast_concat]
        have hsstep : specSegStep (segs, cur, 0) ',' = (segs ++ [cur], [], 0) := by
          simp [specSegStep]
        rw [List.foldl_cons, List.foldl_cons, hstep, hsstep]
        have : (segs ++ [cur]).map trimChars = segs.map trimChars ++ [trimChars cur] := by
          simp
        rw [← this]
        exact ih (segs ++ [cur]) [] 0
      · have hstep : splitStep (segs.map trimChars, cur, d) ',' =
            (segs.map trimChars, cur ++ [','], d) := by
          unfold splitStep
          simp only []
          rw [if_neg]
          · simp
          · intro hand
            exact hd (by simpa using hand.2)
        have hsstep : specSegStep (segs, cur, d) ',' = (segs, cur ++ [','], d) := by
          unfold specSegStep
          rw [if_neg]
          · simp
          · intro hand
            exact hd hand.2
        rw [List.foldl_cons, List.foldl_cons, hstep, hsstep]
        exact ih segs (cur ++ [',']) d
    · have hstep : splitStep (segs.map trimChars, cur, d) c =
          (segs.map trimChars, cur ++ [c],
            if c = ')' then (if c = '(' then d + 1 else d) - 1
            else if c = '(' then d + 1 else d) := by
        unfold splitStep
        simp only []
        rw [if_neg]
        intro hand
        exact hc hand.1
      have hsstep : specSegStep (segs, cur, d) c =
          (segs, cur ++ [c],
            if c = '(' then d + 1 else if c = ')' then d - 1 else d) := by
        unfold specSegStep
        rw [if_neg]
        intro hand
        exact hc hand.1
      have hdep : (if c = ')' then (if c = '(' then d + 1 else d) - 1
            else if c = '(' then d + 1 else d) =
          (if c = '(' then d + 1 else if c = ')' then d - 1 else d) := by
        by_cases h1 : c = '('
        · subst h1; simp
        · by_cases h2 : c = ')'
          · subst h2; simp
          · simp [h1, h2]
      rw [List.foldl_cons, List.foldl_cons, hstep, hsstep, hdep]
      exact ih segs (cur ++ [c]) _

/-- C5 (amended). The splitter returns the trimmed top-level members of
the body — a comma inside a nested parenthesized group never causes a
split — except that the final member is dropped when it trims to the
empty string; hence exactly N member strings when the final member is
not all-whitespace, and N-1 when it is. -/
theorem claim5_splitter_amended (body : Str) :
    ∃ initSegs lastSeg,
      specTopLevelSegments body = initSegs ++ [lastSeg] ∧
      splitLines body = initSegs.map trimChars ++
        (if trimChars lastSeg = [] then [] else [trimChars lastSeg]) ∧
      (splitLines body).length =
        (specTopLevelSegments body).length -
          (if trimChars lastSeg = [] then 1 else 0) := by
  have hrel := split_seg_rel body [] [] 0
  simp only [List.map_nil] at hrel
  refine ⟨(body.foldl specSegStep ([], [], 0)).1,
    (body.foldl specSegStep ([], [], 0)).2.1, rfl, ?_, ?_⟩
  · unfold splitLines
    rw [hrel]
    by_cases h : trimChars (body.foldl specSegStep ([], [], 0)).2.1 = []
    · simp [h]
    · simp [h]
  · unfold splitLines specTopLevelSegments
    rw [hrel]
    by_cases h : trimChars (body.foldl specSegStep ([], [], 0)).2.1 = []
    · simp [h]
    · simp [h]

/-- C5 counterexample: the body `A,` has two top-level comma-separated
members (`A` and the empty member after the trailing comma), but the
splitter returns only one string — the trailing all-whitespace member is
dropped, refuting the claim that exactly N member strings are returned. -/
theorem claim5_counterexample :
    splitLines ("A,".toList) = ["A".toList] ∧
    specTopLevelSegments ("A,".toList) = ["A".toList, []] ∧
    (splitLines ("A,".toList)).length ≠ (specTopLevelSegments ("A,".toList)).length := by
  decide

/-! Deterministic building blocks for the source's regular expressions.
Every quantifier in those patterns is either a literal, a greedy
character-class run followed by a character outside the class (so
backtracking can never succeed with a shorter run), or the single lazy
body of the CREATE TABLE pattern, whose behaviour is derived at
`matchCreateAt` below. -/

/-- Does `pat` occur at the start of `s`? (helper for `containsStr`). -/
def startsWithStr : Str → Str → Bool
  | [], _ => true
  | _ :: _, [] => false
  | p :: pt, c :: ct => p = c && startsWithStr pt ct

/-- JS `String.prototype.includes(pat)`: does `pat` occur anywhere in `s`? -/
def containsStr (pat : Str) : Str → Bool
  | [] => pat.isEmpty
  | c :: t => startsWithStr pat (c :: t) || containsStr pat t

/-- Match a literal word case-insensitively (the `i` flag); the pattern is
given in upper case. Returns the rest of the input. -/
def matchCI (pat : Str) (s : Str) : Option Str :=
  match pat, s with
  | [], s => some s
  | _ :: _, [] => none
  | p :: pt, c :: ct => if c.toUpper = p then matchCI pt ct else none

/-- Pattern `\s+`: at least one whitespace character, matched greedily. -/
def ws1 (s : Str) : Option Str :=
  let w := s.takeWhile isWS
  if w = [] then none else some (s.drop w.length)

/-- Pattern `\s*`: any run of whitespace, matched greedily. -/
def ws0 (s : Str) : Str := s.dropWhile isWS

/-- JS `String.prototype.split(',')`: split at every comma; n commas give
n+1 pieces, empty pieces included. -/
def splitCommas : Str → List Str
  | [] => [[]]
  | c :: t =>
    match splitCommas t with
    | [] => if c = ',' then [[], []] else [[c]]
    | h :: r => if c = ',' then [] :: h :: r else (c :: h) :: r

/-- The column regex `^\s*([^\s]+)\s+([^\s,\(]+)(?:\([^)]*\))?` of source
line 126: captures the first whitespace-delimited token (name) and the
second token up to a comma, parenthesis or whitespace (type). The
optional parenthesized qualifier affects neither capture. -/
def parseColumn (line : Str) : Option (Str × Str) :=
  let l1 := line.dropWhile isWS
  let name := l1.takeWhile (fun c => !isWS c)
  if name = [] then none else
  let l2 := l1.drop name.length
  let w := l2.takeWhile isWS
  if w = [] then none else
  let l3 := l2.drop w.length
  let ty := l3.takeWhile (fun c => !isWS c && c ≠ ',' && c ≠ '(')
  if ty = [] then none else some (name, ty)

/-- Pattern `/PRIMARY\s+KEY\s*\(([^)]+)\)/i` attempted at one position: returns
the captured column-list text. -/
def tryPkAt (s : Str) : Option Str :=
  (matchCI "PRIMARY".toList s).bind fun s1 =>
  (ws1 s1).bind fun s2 =>
  (matchCI "KEY".toList s2).bind fun s3 =>
  match ws0 s3 with
  | '(' :: s5 =>
    let cols := s5.takeWhile (· ≠ ')')
    if cols = [] then none
    else
      match s5.drop cols.length with
      | ')' :: _ => some cols
      | _ => none
  | _ => none

/-- First match of the primary-key pattern anywhere in the line
(`String.prototype.match` scans left to right). -/
def findPk : Str → Option Str
  | [] => none
  | c :: t =>
    match tryPkAt (c :: t) with
    | some r => some r
    | none => findPk t

/-- Pattern `/FOREIGN\s+KEY\s*\(([^)]+)\)\s+REFERENCES\s+([^\s(]+)\s*\(([^)]+)\)/i`
attempted at one position: captures (fk columns, referenced table,
referenced columns) and also returns the rest of the input after the
match (used by the ALTER TABLE scan to continue past the match). -/
def tryFkAt (s : Str) : Option (Str × Str × Str × Str) :=
  (matchCI "FOREIGN".toList s).bind fun s1 =>
  (ws1 s1).bind fun s2 =>
  (matchCI "KEY".toList s2).bind fun s3 =>
  match ws0 s3 with
  | '(' :: s5 =>
    let cols := s5.takeWhile (· ≠ ')')
    if cols = [] then none
    else
      match s5.drop cols.length with
      | ')' :: s6 =>
        (ws1 s6).bind fun s7 =>
        (matchCI "REFERENCES".toList s7).bind fun s8 =>
        (ws1 s8).bind fun s9 =>
        let ref := s9.takeWhile (fun c => !isWS c && c ≠ '(')
        if ref = [] then none else
        match ws0 (s9.drop ref.length) with
        | '(' :: s11 =>
          let cols2 := s11.takeWhile (· ≠ ')')
          if cols2 = [] then none
          else
            match s11.drop cols2.length with
            | ')' :: s12 => some (cols, ref, cols2, s12)
            | _ => none
        | _ => none
      | _ => none
  | _ => none

/-- First match of the foreign-key pattern anywhere in the line. -/
def findFk : Str → Option (Str × Str × Str × Str)
  | [] => none
  | c :: t =>
    match tryFkAt (c :: t) with
    | some r => some r
    | none => findFk t

/-- Pattern `/^\d+\)$/`: one or more digits followed by a closing parenthesis,
matching the whole string (parser-artifact filter of source line 133). -/
def digitsParen (l : Str) : Bool :=
  l.dropLast ≠ [] && l.dropLast.all Char.isDigit && l.getLastD ' ' = ')'

/-- Function `simplifyDataType` from `generate_der.js`: upper-case the raw type and
classify by substring containment, first rule winning. -/
def simplifyDataType (dataType : Str) : Str :=
  let type := upperStr dataType
  if containsStr "VARCHAR".toList type || containsStr "CHAR".toList type then "STRING".toList
  else if containsStr "NUMBER".toList type || containsStr "INTEGER".toList type
      || containsStr "DECIMAL".toList type then "NUMBER".toList
  else if containsStr "DATE".toList type || containsStr "TIMESTAMP".toList type then "DATE".toList
  else if containsStr "CLOB".toList type || containsStr "BLOB".toList type then "LOB".toList
  else "OTHER".toList

/-- A parsed column record (source lines 144-149). -/
structure Column where
  name : Str
  type : Str
  isPrimaryKey : Bool
  isNotNull : Bool
deriving DecidableEq, Repr

/-- An inline constraint record (source line 106): `{ type: 'PK', columns }`. -/
structure Constraint where
  type : Str
  columns : List Str
deriving DecidableEq, Repr

/-- A directed foreign-key relationship (source lines 115-120, 176-181). -/
structure Rel where
  from_ : Str
  to_ : Str
  fromColumns : List Str
  toColumns : List Str
deriving DecidableEq, Repr

/-- The value stored in the `tables` map: `{ columns, constraints }`. -/
structure TableInfo where
  columns : List Column
  constraints : List Constraint
deriving DecidableEq, Repr

/-- The run-scoped aggregate: insertion-ordered table map plus the
relationship list. -/
structure Schema where
  tables : List (Str × TableInfo)
  rels : List Rel
deriving DecidableEq, Repr

/-- JavaScript `Map.prototype.set`: update in place when the key exists
(keeping its position), otherwise append. -/
def mapSet (m : List (Str × TableInfo)) (k : Str) (v : TableInfo) :
    List (Str × TableInfo) :=
  if m.any (fun p => p.1 == k) then
    m.map (fun p => if p.1 == k then (k, v) else p)
  else m ++ [(k, v)]

/-- JavaScript `Map.prototype.has`. -/
def mapHas (m : List (Str × TableInfo)) (k : Str) : Bool :=
  m.any (fun p => p.1 == k)

/-- One iteration of the member loop (source lines 94-152): trim the
member; skip if empty; constraint branch when it contains `CONSTRAINT`
(primary key recorded as a standalone constraint, foreign key recorded
as a relationship, a failed sub-match silently skipped); otherwise the
column branch with the artifact filters and the `PRIMARY KEY` /
`NOT NULL` flags read from the member text. -/
def processLine (tableName : Str)
    (acc : List Column × List Constraint × List Rel) (line0 : Str) :
    List Column × List Constraint × List Rel :=
  let line := trimChars line0
  if line = [] then acc
  else if containsStr "CONSTRAINT".toList (upperStr line) then
    if containsStr "PRIMARY KEY".toList (upperStr line) then
      match findPk line with
      | some pk =>
        (acc.1, acc.2.1 ++
          [⟨"PK".toList, (splitCommas pk).map (fun col => cleanName (trimChars col))⟩],
          acc.2.2)
      | none => acc
    else if containsStr "FOREIGN KEY".toList (upperStr line) then
      match findFk line with
      | some (fkCols, refTable, refCols, _) =>
        (acc.1, acc.2.1, acc.2.2 ++
          [⟨tableName, cleanName refTable,
            (splitCommas fkCols).map (fun col => cleanName (trimChars col)),
            (splitCommas refCols).map (fun col => cleanName (trimChars col))⟩])
      | none => acc
    else acc
  else
    match parseColumn line with
    | none => acc
    | some (rawName, rawType) =>
      let columnName := cleanName rawName
      if upperStr columnName = "PARTITION".toList ∨ columnName.contains ')'
          ∨ digitsParen columnName ∨ upperStr columnName = "PRIMARY".toList
          ∨ upperStr columnName = "KEY".toList ∨ columnName.length = 0 then acc
      else
        (acc.1 ++
          [⟨columnName, simplifyDataType rawType,
            containsStr "PRIMARY KEY".toList (upperStr line),
            containsStr "NOT NULL".toList (upperStr line) &&
              !(containsStr "PRIMARY KEY".toList (upperStr line))⟩],
          acc.2.1, acc.2.2)

/-- One iteration of the CREATE TABLE loop (source lines 65-163): clean
the captured name, split the body, process the members, register the
table only when it has at least one valid column, and append the inline
relationships unconditionally. -/
def processStatement (st : Schema) (p : Str × Str) : Schema :=
  let tableName := cleanName p.1
  let lines := splitLines p.2
  let res := lines.foldl (processLine tableName) ([], [], [])
  { tables := if res.1 ≠ [] then mapSet st.tables tableName ⟨res.1, res.2.1⟩ else st.tables,
    rels := st.rels ++ res.2.2 }

/-! The statement scanner: `createTableRegex`
`/CREATE\s+TABLE\s+([^\s(]+)\s*\(([\s\S]*?)\)(?:\s*[^;]*)?;/gi` driven by
`exec` in a loop. The lazy body group stops at the first `)` whose tail
can still be completed, and the tail `(?:\s*[^;]*)?;` succeeds exactly
when a `;` occurs at or after its start (with the match ending at the
first such `;`); since a `;` after a later `)` is also after the first
`)`, a successful match always captures the body up to the FIRST `)`
after the opening parenthesis, and fails when no `)` or no subsequent
`;` exists. On failure `exec` retries at the next character. -/

/-- One attempt of `createTableRegex` at the current position. Returns
(raw table name, raw body, rest of input after the consumed `;`). -/
def matchCreateAt (s : Str) : Option (Str × Str × Str) :=
  (matchCI "CREATE".toList s).bind fun s1 =>
  (ws1 s1).bind fun s2 =>
  (matchCI "TABLE".toList s2).bind fun s3 =>
  (ws1 s3).bind fun s4 =>
  let name := s4.takeWhile (fun c => !isWS c && c ≠ '(')
  if name = [] then none else
  match ws0 (s4.drop name.length) with
  | '(' :: s6 =>
    let body := s6.takeWhile (· ≠ ')')
    match s6.drop body.length with
    | ')' :: s7 =>
      let skip := s7.takeWhile (· ≠ ';')
      match s7.drop skip.length with
      | ';' :: s8 => some (name, body, s8)
      | _ => none
    | _ => none
  | _ => none

/-- The `exec` loop with the `g` flag: emit each match and continue after
it; after a failed attempt, advance one character. Fuel bounds the
recursion and `length` fuel always suffices, since every step consumes
at least one character. -/
def scanCreateAux : Nat → Str → List (Str × Str)
  | 0, _ => []
  | _ + 1, [] => []
  | fuel + 1, c :: t =>
    match matchCreateAt (c :: t) with
    | some (name, body, rest) => (name, body) :: scanCreateAux fuel rest
    | none => scanCreateAux fuel t

/-- All (raw name, raw body) pairs captured by the CREATE TABLE scan. -/
def scanCreateTables (text : Str) : List (Str × Str) :=
  scanCreateAux text.length text

/-! The out-of-line constraint scanner: `alterConstraintRegex`
`/ALTER\s+TABLE\s+([^\s]+)\s+ADD\s+CONSTRAINT[^;]*FOREIGN\s+KEY...`
`...\s*\(([^)]+)\)\s+REFERENCES\s+([^\s(]+)\s*\(([^)]+)\)/gi`.
The greedy `[^;]*` consumes as much of the `;`-free run after
`CONSTRAINT` as possible and backtracks, so the LAST position inside
that run at which the FOREIGN KEY tail matches wins. -/

/-- Greedy search: try the FOREIGN KEY tail at offset `k`, `k-1`, ..., `0`
from `s`, longest skip first. -/
def findFkFrom (s : Str) : Nat → Option (Str × Str × Str × Str)
  | 0 => tryFkAt s
  | k + 1 =>
    match tryFkAt (s.drop (k + 1)) with
    | some r => some r
    | none => findFkFrom s k

/-- One attempt of `alterConstraintRegex` at the current position.
Returns (raw source table, fk columns, raw target table, target columns,
rest of input after the match). -/
def matchAlterAt (s : Str) : Option (Str × Str × Str × Str × Str) :=
  (matchCI "ALTER".toList s).bind fun s1 =>
  (ws1 s1).bind fun s2 =>
  (matchCI "TABLE".toList s2).bind fun s3 =>
  (ws1 s3).bind fun s4 =>
  let name := s4.takeWhile (fun c => !isWS c)
  if name = [] then none else
  (ws1 (s4.drop name.length)).bind fun s5 =>
  (matchCI "ADD".toList s5).bind fun s6 =>
  (ws1 s6).bind fun s7 =>
  (matchCI "CONSTRAINT".toList s7).bind fun s8 =>
  let run := s8.takeWhile (· ≠ ';')
  match findFkFrom s8 run.length with
  | some (fkCols, refTable, refCols, rest) => some (name, fkCols, refTable, refCols, rest)
  | none => none

/-- The `exec` loop of the second pass, building one relationship per
match exactly as source lines 170-182 do. -/
def scanAlterAux : Nat → Str → List Rel
  | 0, _ => []
  | _ + 1, [] => []
  | fuel + 1, c :: t =>
    match matchAlterAt (c :: t) with
    | some (name, fkCols, refTable, refCols, rest) =>
      ⟨cleanName name, cleanName refTable,
        (splitCommas fkCols).map (fun col => cleanName (trimChars col)),
        (splitCommas refCols).map (fun col => cleanName (trimChars col))⟩ ::
        scanAlterAux fuel rest
    | none => scanAlterAux fuel t

/-- All out-of-line relationships found by the second pass. -/
def alterRels (text : Str) : List Rel :=
  scanAlterAux text.length text

/-- The complete schema builder: fold the CREATE TABLE matches into the
table map and relationship list, then append the ALTER TABLE
relationships (the second full-text pass of the source). -/
def buildSchema (text : Str) : Schema :=
  let s := (scanCreateTables text).foldl processStatement ⟨[], []⟩
  { tables := s.tables, rels := s.rels ++ alterRels text }

/-! The diagram renderer (source lines 185-377), modelled structurally:
document strings are built from the same pieces and in the same order as
the source; the partitioned output is a list of chunk documents plus one
index document. -/

/-- One rendered relationship line (source lines 227 and 305):
`    FROM ||--o{ TO : "references"` followed by a newline. -/
def relLine (rel : Rel) : Str :=
  "    ".toList ++ cleanName rel.from_ ++ " ||--o\x7b ".toList ++
    cleanName rel.to_ ++ " : \"references\"\n".toList

/-- One rendered column line inside a table block (source lines 202-213). -/
def columnLine (column : Column) : Str :=
  "        ".toList ++ column.type ++ [' '] ++ cleanName column.name ++
    (if column.isPrimaryKey then " PK".toList else []) ++
    (if column.isNotNull && !column.isPrimaryKey then " \"NOT NULL\"".toList else []) ++
    ['\n']

/-- One rendered table block (source lines 197-217). -/
def tableBlock (p : Str × TableInfo) : Str :=
  "    ".toList ++ cleanName p.1 ++ " \x7b\n".toList ++
    (p.2.columns.map columnLine).flatten ++ "    \x7d\n\n".toList

/-- The single-document relationship loop (source lines 220-229): a line
is emitted only when both endpoint tables exist in the table map. -/
def relLinesStr (tables : List (Str × TableInfo)) (rels : List Rel) : Str :=
  rels.foldl
    (fun acc rel =>
      if mapHas tables rel.from_ && mapHas tables rel.to_ then acc ++ relLine rel
      else acc) []

/-- The single-document `erDiagram` block (source lines 194-231). -/
def mermaidSingle (tablesArray : List (Str × TableInfo)) (rels : List Rel) : Str :=
  "erDiagram\n".toList ++ (tablesArray.map tableBlock).flatten ++
    relLinesStr tablesArray rels

/-- JS `Array.prototype.join(sep)`. -/
def joinSep (sep : Str) : List Str → Str
  | [] => []
  | [x] => x
  | x :: y :: r => x ++ sep ++ joinSep sep (y :: r)

/-- One row of a relationship table (source lines 336, 368, 426). -/
def relRow (rel : Rel) : Str :=
  "| ".toList ++ rel.from_ ++ " | ".toList ++ joinSep ", ".toList rel.fromColumns ++
    " | ".toList ++ rel.to_ ++ " | ".toList ++ joinSep ", ".toList rel.toColumns ++
    " |\n".toList

/-- The full relationship table body: one row per relationship, with no
inclusion condition (source lines 425-427 for the single document,
367-369 for the master index). -/
def relTableStr (rels : List Rel) : Str :=
  rels.foldl (fun acc rel => acc ++ relRow rel) []

/-- Partition capacity: 50 tables per partition (source line 236). -/
def partitionSize : Nat := 50

/-- Ceiling division `Math.ceil(n / 50)` (source line 237). -/
def totalPartitions (n : Nat) : Nat := (n + partitionSize - 1) / partitionSize

/-- The per-chunk loop over relationships (source lines 301-308): in one
pass, append the diagram line AND record the relationship, exactly when
both endpoints belong to the chunk's table names. -/
def chunkRelScan (names : List Str) (rels : List Rel) : Str × List Rel :=
  rels.foldl
    (fun acc rel =>
      if names.contains rel.from_ && names.contains rel.to_ then
        (acc.1 ++ relLine rel, acc.2 ++ [rel])
      else acc) ([], [])

/-- One partition document, reduced to its schema-relevant content:
its table slice, its diagram's relationship lines, and its listed
relationships. -/
structure ChunkDoc where
  tables : List (Str × TableInfo)
  relLines : Str
  relRows : List Rel
deriving DecidableEq, Repr

/-- The master index document, reduced to its schema-relevant content:
the summary counts and the full relationship table (source lines
239-243 and 361-371). -/
structure IndexDoc where
  totalTables : Nat
  totalRelationships : Nat
  partitionsGenerated : Nat
  allRelRows : List Rel
deriving DecidableEq, Repr

/-- Function `generatePartitionedDiagrams` (source lines 235-377): slice the table
array into partitions of 50 in discovery order, render one chunk
document per partition, and one index document listing every
relationship. -/
def generatePartitionedDiagrams (tablesArray : List (Str × TableInfo))
    (rels : List Rel) : List ChunkDoc × IndexDoc :=
  let chunks := (List.range (totalPartitions tablesArray.length)).map (fun i =>
    let partitionTables := (tablesArray.drop (i * partitionSize)).take partitionSize
    let scan := chunkRelScan (partitionTables.map (fun p => p.1)) rels
    ChunkDoc.mk partitionTables scan.1 scan.2)
  (chunks, ⟨tablesArray.length, rels.length, totalPartitions tablesArray.length, rels⟩)

/-- The renderer's output: one document, or chunk documents plus index. -/
inductive RenderResult where
  | single (mermaid : Str)
  | partitioned (chunks : List ChunkDoc) (index : IndexDoc)
deriving DecidableEq, Repr

def RenderResult.isPartitioned : RenderResult → Bool
  | .single _ => false
  | .partitioned _ _ => true

/-- Function `generateMermaidDiagram` (source lines 185-232): partitioned output
exactly when more than 100 tables, single diagram otherwise. -/
def generateMermaidDiagram (tablesArray : List (Str × TableInfo))
    (rels : List Rel) : RenderResult :=
  if tablesArray.length > 100 then
    RenderResult.partitioned (generatePartitionedDiagrams tablesArray rels).1
      (generatePartitionedDiagrams tablesArray rels).2
  else RenderResult.single (mermaidSingle tablesArray rels)

/-! Fold characterizations used to reason about the render loops. -/

theorem foldl_append_map {α β : Type} (f : α → List β) (l : List α) :
    ∀ acc : List β, l.foldl (fun a r => a ++ f r) acc = acc ++ (l.map f).flatten := by
  induction l with
  | nil => intro acc; simp
  | cons x t ih =>
    intro acc
    simp only [List.foldl_cons, List.map_cons, List.flatten_cons, ih, List.append_assoc]

theorem foldl_append_filter {α β : Type} (p : α → Bool) (f : α → List β) (l : List α) :
    ∀ acc : List β,
      l.foldl (fun a r => if p r then a ++ f r else a) acc =
        acc ++ ((l.filter p).map f).flatten := by
  induction l with
  | nil => intro acc; simp
  | cons x t ih =>
    intro acc
    by_cases h : p x
    · simp only [List.foldl_cons, h, if_true, ih, List.filter_cons_of_pos h,
        List.map_cons, List.flatten_cons, List.append_assoc]
    · simp only [List.foldl_cons, h, if_false, ih, Bool.false_eq_true,
        List.filter_cons_of_neg, h, List.map_cons]
      rw [List.filter_cons_of_neg]
      simp [h]

theorem foldl_pair_filter {α β : Type} (p : α → Bool) (f : α → List β) (l : List α) :
    ∀ (a : List β) (b : List α),
      l.foldl (fun acc r => if p r then (acc.1 ++ f r, acc.2 ++ [r]) else acc) (a, b) =
        (a ++ ((l.filter p).map f).flatten, b ++ l.filter p) := by
  induction l with
  | nil => intro a b; simp
  | cons x t ih =>
    intro a b
    by_cases h : p x
    · simp only [List.foldl_cons, h, if_true, ih, List.filter_cons_of_pos h,
        List.map_cons, List.flatten_cons, List.append_assoc]
      simp
    · simp only [List.foldl_cons, h, if_false, Bool.false_eq_true, ih]
      rw [List.filter_cons_of_neg]
      simp [h]

/-- C3. Rendering inclusion: the single-document diagram contains exactly
the lines of relationships whose two endpoint tables exist in the table
map; each per-chunk scan emits exactly the relationships whose two
endpoints lie in that chunk's names, in lines and listing alike; yet the
full relationship table (single document or master index) lists every
relationship unconditionally. -/
theorem claim3_rendered_relationship_inclusion
    (tables : List (Str × TableInfo)) (rels : List Rel) (chunkNames : List Str) :
    relLinesStr tables rels =
      ((rels.filter (fun r => mapHas tables r.from_ && mapHas tables r.to_)).map
        relLine).flatten ∧
    chunkRelScan chunkNames rels =
      (((rels.filter (fun r => chunkNames.contains r.from_ && chunkNames.contains r.to_)).map
          relLine).flatten,
        rels.filter (fun r => chunkNames.contains r.from_ && chunkNames.contains r.to_)) ∧
    relTableStr rels = (rels.map relRow).flatten ∧
    (generatePartitionedDiagrams tables rels).2.allRelRows = rels := by
  refine ⟨?_, ?_, ?_, rfl⟩
  · unfold relLinesStr
    exact foldl_append_filter _ _ rels []
  · unfold chunkRelScan
    rw [foldl_pair_filter]
    simp
  · unfold relTableStr
    exact foldl_append_map _ rels []

/-- C4. The renderer partitions exactly when the table count exceeds 100;
at exactly 150 tables it produces 3 chunk documents of 50 tables each
(whose concatenation is the original discovery-ordered table array) plus
the one index document; at exactly 100 tables it produces the single
document. -/
theorem claim4_partition_boundary
    (tables : List (Str × TableInfo)) (rels : List Rel) :
    (generateMermaidDiagram tables rels).isPartitioned = decide (tables.length > 100) ∧
    (tables.length = 150 →
      generateMermaidDiagram tables rels =
        RenderResult.partitioned (generatePartitionedDiagrams tables rels).1
          (generatePartitionedDiagrams tables rels).2 ∧
      (generatePartitionedDiagrams tables rels).1.length = 3 ∧
      (∀ d ∈ (generatePartitionedDiagrams tables rels).1, d.tables.length = 50) ∧
      ((generatePartitionedDiagrams tables rels).1.map ChunkDoc.tables).flatten = tables) ∧
    (tables.length = 100 →
      generateMermaidDiagram tables rels =
        RenderResult.single (mermaidSingle tables rels)) := by
  refine ⟨?_, ?_, ?_⟩
  · unfold generateMermaidDiagram
    by_cases h : tables.length > 100
    · simp [h, RenderResult.isPartitioned]
    · simp [h, RenderResult.isPartitioned]
  · intro h150
    have hgt : tables.length > 100 := by omega
    have htp : totalPartitions tables.length = 3 := by
      unfold totalPartitions partitionSize
      omega
    refine ⟨?_, ?_, ?_, ?_⟩
    · unfold generateMermaidDiagram
      simp [hgt]
    · unfold generatePartitionedDiagrams
      simp [htp]
    · intro d hd
      unfold generatePartitionedDiagrams at hd
      simp only [htp, List.mem_map, List.mem_range] at hd
      obtain ⟨i, hi, hd⟩ := hd
      subst hd
      simp only [List.length_take, List.length_drop, h150]
      unfold partitionSize
      omega
    · unfold generatePartitionedDiagrams
      simp only [htp]
      have hr : List.range 3 = [0, 1, 2] := by decide
      rw [hr]
      simp only [List.map_cons, List.map_nil, List.flatten_cons, List.flatten_nil,
        List.append_nil]
      unfold partitionSize
      have h2 : (tables.drop 100).length = 50 := by
        simp [h150]
      have e2 : (tables.drop (2 * 50)).take 50 = tables.drop 100 := by
        have hn : (2 * 50 : Nat) = 100 := by norm_num
        rw [hn]
        exact List.take_of_length_le (le_of_eq h2)
      have e0 : (tables.drop (0 * 50)).take 50 = tables.take 50 := by norm_num
      have e1 : (tables.drop (1 * 50)).take 50 = (tables.drop 50).take 50 := by norm_num
      rw [e0, e1, e2]
      conv_rhs => rw [← List.take_append_drop 50 tables]
      congr 1
      conv_rhs => rw [← List.take_append_drop 50 (tables.drop 50)]
      congr 1
      rw [List.drop_drop]
  · intro h100
    unfold generateMermaidDiagram
    simp [h100]

/-! Invariants of the table map under `Map.prototype.set`. -/

theorem mem_mapSet {m : List (Str × TableInfo)} {k : Str} {v : TableInfo}
    {q : Str × TableInfo} (h : q ∈ mapSet m k v) : q = (k, v) ∨ q ∈ m := by
  unfold mapSet at h
  by_cases ha : m.any (fun p => p.1 == k)
  · rw [if_pos ha] at h
    obtain ⟨p, hp, he⟩ := List.mem_map.mp h
    by_cases hk : p.1 == k
    · rw [if_pos hk] at he
      left; exact he.symm
    · rw [if_neg hk] at he
      right; exact he ▸ hp
  · rw [if_neg ha] at h
    rcases List.mem_append.mp h with h' | h'
    · right; exact h'
    · left; simpa using h'

theorem keys_mapSet_nodup {m : List (Str × TableInfo)} {k : Str} {v : TableInfo}
    (h : (m.map Prod.fst).Nodup) : ((mapSet m k v).map Prod.fst).Nodup := by
  unfold mapSet
  by_cases ha : m.any (fun p => p.1 == k)
  · rw [if_pos ha]
    have : (m.map (fun p => if p.1 == k then (k, v) else p)).map Prod.fst =
        m.map Prod.fst := by
      rw [List.map_map]
      apply List.map_congr_left
      intro p _
      by_cases hk : p.1 == k
      · simp only [Function.comp_apply, hk, if_true]
        exact (eq_of_beq hk).symm
      · have hne : p.1 ≠ k := by simpa using hk
        simp [Function.comp_apply, hne]
    rw [this]
    exact h
  · rw [if_neg ha, List.map_append]
    simp only [List.map_cons, List.map_nil]
    rw [List.nodup_append]
    refine ⟨h, List.nodup_singleton k, ?_⟩
    intro a hax hak
    have hk : a = k := by simpa using hak
    obtain ⟨p, hp, hpk⟩ := List.mem_map.mp hax
    have ha' : (m.any fun p => p.1 == k) = false := Bool.eq_false_iff.mpr ha
    have := List.any_eq_false.mp ha' p hp
    rw [hpk, hk] at this
    simp at this

/-- Any property of the table map preserved by registering a non-empty
column list is an invariant of the whole CREATE TABLE fold. -/
theorem foldl_tables_inv (P : List (Str × TableInfo) → Prop)
    (hstep : ∀ tbls k cols cns, cols ≠ [] → P tbls →
      P (mapSet tbls k ⟨cols, cns⟩)) :
    ∀ (stmts : List (Str × Str)) (st : Schema), P st.tables →
      P ((stmts.foldl processStatement st).tables) := by
  intro stmts
  induction stmts with
  | nil => intro st h; exact h
  | cons s t ih =>
    intro st h
    rw [List.foldl_cons]
    apply ih
    show P (processStatement st s).tables
    unfold processStatement
    by_cases hres :
        ((splitLines s.2).foldl (processLine (cleanName s.1)) ([], [], [])).1 ≠ []
    · simpa [hres] using hstep _ _ _ _ hres h
    · simpa [hres] using h

/-- C10. Every table present in the completed schema has at least one
column: a statement whose body yields no valid column is never
registered in the table map. -/
theorem claim10_tables_have_columns (text : Str) :
    ∀ p ∈ (buildSchema text).tables, p.2.columns ≠ [] := by
  have hfold : ∀ p ∈ ((scanCreateTables text).foldl processStatement ⟨[], []⟩).tables,
      p.2.columns ≠ [] := by
    apply foldl_tables_inv (P := fun tbls => ∀ p ∈ tbls, p.2.columns ≠ [])
    · intro tbls k cols cns hne hP q hq
      rcases mem_mapSet hq with h | h
      · subst h; exact hne
      · exact hP q h
    · intro p hp
      simp at hp
  intro p hp
  exact hfold p hp

/-- C7 (amended). After normalization the table names of the completed
schema are unique (the map keys admit no duplicate); column names inside
one table, however, are not deduplicated — see the counterexample. -/
theorem claim7_amended_table_keys_unique (text : Str) :
    ((buildSchema text).tables.map Prod.fst).Nodup := by
  have hfold : (((scanCreateTables text).foldl processStatement ⟨[], []⟩).tables.map
      Prod.fst).Nodup := by
    apply foldl_tables_inv (P := fun tbls => (tbls.map Prod.fst).Nodup)
    · intro tbls k cols cns _ hP
      exact keys_mapSet_nodup hP
    · simp
  exact hfold

/-! Concrete inputs from the spec's examples. -/

/-- The EMP example statement. -/
def c1Input : Str :=
  "CREATE TABLE EMP (ID NUMBER PRIMARY KEY, NAME VARCHAR(50) NOT NULL);".toList

/-- The ORD example statement followed by the EMP example statement. -/
def c2Input : Str :=
  ("CREATE TABLE ORD (ID NUMBER, EMP_ID NUMBER, FOREIGN KEY (EMP_ID) REFERENCES EMP(ID));\n" ++
   "CREATE TABLE EMP (ID NUMBER PRIMARY KEY, NAME VARCHAR(50) NOT NULL);").toList

/-- A statement with two identically named columns. -/
def c7Input : Str := "CREATE TABLE T (A NUMBER, A NUMBER);".toList

/-- What the engine actually produces for the EMP statement: the scanner's
lazy body capture stops at the first `)` — the one closing `VARCHAR(50` —
so `NOT NULL` is no longer part of NAME's member text. -/
def empTableInfo : TableInfo :=
  ⟨[⟨"ID".toList, "NUMBER".toList, true, false⟩,
    ⟨"NAME".toList, "STRING".toList, false, false⟩], []⟩

/-- What the engine actually produces for the ORD statement: the body is
truncated at the first `)` — the one closing `(EMP_ID` — and the inline
`FOREIGN KEY` member, lacking the token `CONSTRAINT`, is parsed as a
column named FOREIGN of type OTHER. -/
def ordTableInfo : TableInfo :=
  ⟨[⟨"ID".toList, "NUMBER".toList, false, false⟩,
    ⟨"EMP_ID".toList, "NUMBER".toList, false, false⟩,
    ⟨"FOREIGN".toList, "OTHER".toList, false, false⟩], []⟩

/-- The column list the claim asserts for EMP (NAME carrying
isNotNull = true). -/
def claimedEmpColumns : List Column :=
  [⟨"ID".toList, "NUMBER".toList, true, false⟩,
   ⟨"NAME".toList, "STRING".toList, false, true⟩]

/-- C1 counterexample: on the EMP statement the schema builder does not
produce the claimed column list — NAME's isNotNull comes out false,
because the `NOT NULL` text lies beyond the first `)` where the
scanner's lazy body capture stops. -/
theorem claim1_counterexample :
    (buildSchema c1Input).tables.map (fun p => (p.1, p.2.columns)) ≠
      [("EMP".toList, claimedEmpColumns)] := by
  decide

/-- C1 (amended). The EMP statement yields exactly one table EMP with
ordered columns ID (NUMBER, primary key, not-null false) and NAME
(STRING, not primary key, not-null FALSE — the `NOT NULL` clause is lost
to the scanner's body truncation at the first `)`), and no
relationships. -/
theorem claim1_emp_example_amended :
    buildSchema c1Input = ⟨[("EMP".toList, empTableInfo)], []⟩ := by
  decide

/-- C2 counterexample: the ORD + EMP input yields zero relationships (not
one), and the rendered diagram does not contain the claimed
`ORD ||--o{ EMP : "references"` line. -/
theorem claim2_counterexample :
    (buildSchema c2Input).rels.length = 0 ∧
    containsStr ("ORD ||--o\x7b EMP : \"references\"".toList)
      (mermaidSingle (buildSchema c2Input).tables (buildSchema c2Input).rels) = false := by
  decide

/-- C2 (amended). The ORD + EMP input yields the two tables with no
relationship at all: the inline `FOREIGN KEY` member contains no
`CONSTRAINT` token (and the body is truncated at the first `)`), so it
is parsed as a spurious column FOREIGN of type OTHER on ORD; the
renderer picks the single-document form and its diagram contains no
references line. -/
theorem claim2_ord_example_amended :
    buildSchema c2Input =
      ⟨[("ORD".toList, ordTableInfo), ("EMP".toList, empTableInfo)], []⟩ ∧
    generateMermaidDiagram (buildSchema c2Input).tables (buildSchema c2Input).rels =
      RenderResult.single
        (mermaidSingle (buildSchema c2Input).tables (buildSchema c2Input).rels) ∧
    relLinesStr (buildSchema c2Input).tables (buildSchema c2Input).rels = [] := by
  decide

/-- C7 counterexample: a statement with two columns both named A is
registered with both duplicate column records retained, refuting
uniqueness of column names within a table. -/
theorem claim7_counterexample :
    ¬ (∀ p ∈ (buildSchema c7Input).tables, (p.2.columns.map Column.name).Nodup) := by
  decide

/-- C8 counterexample: `cleanName` replaces the surrounding whitespace by
underscores BEFORE its final trim, so ` A ` normalizes to `_A_`, not to
the canonical name `A` of the trimmed input. -/
theorem claim8_counterexample :
    cleanName (" A ".toList) = "_A_".toList ∧
    cleanName (" A ".toList) ≠ cleanName ("A".toList) := by
  decide

/-- C8 (amended). The normalizer returns only alphanumeric characters and
underscore, with quoting/bracket characters stripped, dots replaced by
underscore, `#` by `_NUM` and every other disallowed character —
including whitespace — by underscore; the trailing trim is then a no-op,
so surrounding whitespace yields extra underscores rather than the
trimmed input's canonical name. -/
theorem claim8_normalizer_amended (l : Str) :
    (cleanName l).all isWordChar = true ∧ cleanName l = cleanNameStages l := by
  constructor
  · rw [List.all_eq_true]
    intro c hc
    exact cleanName_all_wordChar l c hc
  · exact cleanName_eq_stages l

/-- C9. The name normalizer is idempotent: re-normalizing a canonical
name leaves it unchanged. -/
theorem claim9_cleanName_idempotent (l : Str) :
    cleanName (cleanName l) = cleanName l := by
  have hall : ∀ c ∈ cleanName l, isWordChar c = true := cleanName_all_wordChar l
  calc cleanName (cleanName l)
      = trimChars (cleanNameStages (cleanName l)) := rfl
    _ = trimChars (cleanName l) := by rw [stages_fix hall]
    _ = cleanName l :=
        trim_eq_self_of_no_ws (fun c hc => wordChar_not_ws (hall c hc))

/-- C6 counterexample: a body whose constraint member carries
`PRIMARY KEY (ID)` produces a table that RETAINS the standalone
primary-key constraint record, while the ID column's isPrimaryKey flag
stays false — the listed columns are not folded into the column flags. -/
theorem claim6_counterexample :
    processStatement ⟨[], []⟩
        ("T".toList, "ID NUMBER, CONSTRAINT C_PK PRIMARY KEY (ID)".toList) =
      ⟨[("T".toList,
          ⟨[⟨"ID".toList, "NUMBER".toList, false, false⟩],
           [⟨"PK".toList, ["ID".toList]⟩]⟩)], []⟩ ∧
    (∀ p ∈ (processStatement ⟨[], []⟩
        ("T".toList, "ID NUMBER, CONSTRAINT C_PK PRIMARY KEY (ID)".toList)).tables,
      p.2.constraints ≠ [] ∧ ∀ c ∈ p.2.columns, c.isPrimaryKey = false) := by
  decide

/-- C6 (amended). A member containing `CONSTRAINT` never contributes to
the column list (so no column flag is folded); when its primary-key
pattern matches, the normalized column list is appended as a standalone
constraint record kept on the table, and otherwise the constraint
components are unchanged. -/
theorem claim6_pk_constraint_amended (tableName : Str)
    (cols : List Column) (cns : List Constraint) (rels : List Rel) (line : Str)
    (hc : containsStr "CONSTRAINT".toList (upperStr (trimChars line)) = true) :
    (processLine tableName (cols, cns, rels) line).1 = cols ∧
    ((processLine tableName (cols, cns, rels) line).2.1 = cns ∨
      ∃ pk, findPk (trimChars line) = some pk ∧
        (processLine tableName (cols, cns, rels) line).2.1 =
          cns ++ [⟨"PK".toList,
            (splitCommas pk).map (fun col => cleanName (trimChars col))⟩]) := by
  have hne : ¬(trimChars line = []) := by
    intro h
    rw [h] at hc
    exact absurd hc (by decide)
  simp only [processLine]
  rw [if_neg hne, if_pos hc]
  by_cases hp : containsStr "PRIMARY KEY".toList (upperStr (trimChars line)) = true
  · rw [if_pos hp]
    cases hfind : findPk (trimChars line) with
    | none => exact ⟨rfl, Or.inl rfl⟩
    | some pk => exact ⟨rfl, Or.inr ⟨pk, rfl, rfl⟩⟩
  · rw [if_neg hp]
    by_cases hf : containsStr "FOREIGN KEY".toList (upperStr (trimChars line)) = true
    · rw [if_pos hf]
      cases hfind : findFk (trimChars line) with
      | none => exact ⟨rfl, Or.inl rfl⟩
      | some r =>
        obtain ⟨a, b, c, d⟩ := r
        exact ⟨rfl, Or.inl rfl⟩
    · rw [if_neg hf]
      exact ⟨rfl, Or.inl rfl⟩

/-- Witness for C6 (amended) at a concrete constraint member. -/
theorem claim6_pk_constraint_witness :
    (processLine ("T".toList) ([], [], [])
        ("CONSTRAINT C_PK PRIMARY KEY (ID)".toList)).1 = ([] : List Column) ∧
    ((processLine ("T".toList) ([], [], [])
        ("CONSTRAINT C_PK PRIMARY KEY (ID)".toList)).2.1 = ([] : List Constraint) ∨
      ∃ pk, findPk (trimChars ("CONSTRAINT C_PK PRIMARY KEY (ID)".toList)) = some pk ∧
        (processLine ("T".toList) ([], [], [])
            ("CONSTRAINT C_PK PRIMARY KEY (ID)".toList)).2.1 =
          ([] : List Constraint) ++ [⟨"PK".toList,
            (splitCommas pk).map (fun col => cleanName (trimChars col))⟩]) :=
  claim6_pk_constraint_amended ("T".toList) [] [] []
    ("CONSTRAINT C_PK PRIMARY KEY (ID)".toList) (by decide)

/-- Witness for C10 at the EMP example. -/
theorem claim10_tables_have_columns_witness :
    ("EMP".toList, empTableInfo) ∈ (buildSchema c1Input).tables ∧
    ("EMP".toList, empTableInfo).2.columns ≠ [] :=
  ⟨by decide,
   claim10_tables_have_columns c1Input ("EMP".toList, empTableInfo) (by decide)⟩

/-- Witness for C4 at concrete table arrays of lengths 150 and 100. -/
theorem claim4_partition_boundary_witness :
    (List.replicate 150 (("T".toList : Str), empTableInfo)).length = 150 ∧
    (generatePartitionedDiagrams
        (List.replicate 150 ("T".toList, empTableInfo)) []).1.length = 3 ∧
    (List.replicate 100 (("T".toList : Str), empTableInfo)).length = 100 ∧
    generateMermaidDiagram (List.replicate 100 ("T".toList, empTableInfo)) [] =
      RenderResult.single
        (mermaidSingle (List.replicate 100 ("T".toList, empTableInfo)) []) := by
  refine ⟨by simp, ?_, by simp, ?_⟩
  · exact ((claim4_partition_boundary _ []).2.1 (by simp)).2.1
  · exact (claim4_partition_boundary _ []).2.2 (by simp)

/-- Witness for C5 at a concrete body with a nested comma. -/
theorem claim5_splitter_witness :
    ∃ initSegs lastSeg,
      specTopLevelSegments ("A NUMBER, B VARCHAR(10, 2)".toList) =
        initSegs ++ [lastSeg] ∧
      splitLines ("A NUMBER, B VARCHAR(10, 2)".toList) =
        initSegs.map trimChars ++
          (if trimChars lastSeg = [] then [] else [trimChars lastSeg]) ∧
      (splitLines ("A NUMBER, B VARCHAR(10, 2)".toList)).length =
        (specTopLevelSegments ("A NUMBER, B VARCHAR(10, 2)".toList)).length -
          (if trimChars lastSeg = [] then 1 else 0) :=
  claim5_splitter_amended ("A NUMBER, B VARCHAR(10, 2)".toList)

end Der
